import Mathlib

/-!
Verification of the authentication core of the `playerprop` repository.

The Python modules under `src/backend/auth/` are shallowly embedded below:
* `session_management.py`   — `SessionManager` (session table, expiry, limits)
* `login_attempt_tracker.py` — `LoginAttemptTracker` (lockout window)
* `jwt_middleware.py`       — `JWTMiddleware` (token issue / verify)
* `password_strength_validator.py` — `PasswordStrengthValidator`
* `role_based_access_control.py`   — `RoleBasedAccessControl`

Conventions: wall-clock instants are naturals (seconds); Python `dict`s
(which preserve insertion order) are association lists; `datetime`
subtraction `now - t` compared against a positive bound is natural
subtraction, which agrees with Python whenever timestamps are not in the
future and is never satisfied when they are (a negative `timedelta` is
below every positive bound, and truncated subtraction gives `0`).
-/

/-! ### ASCII case mapping (model of Python `str.upper` / `str.lower`) -/

/-- ASCII upper-casing of one character, as `str.upper` acts on ASCII. -/
def upChar (c : Char) : Char :=
  if 97 ≤ c.toNat ∧ c.toNat ≤ 122 then Char.ofNat (c.toNat - 32) else c

/-- ASCII lower-casing of one character, as `str.lower` acts on ASCII. -/
def lowChar (c : Char) : Char :=
  if 65 ≤ c.toNat ∧ c.toNat ≤ 90 then Char.ofNat (c.toNat + 32) else c

/-- `str.upper`, restricted to the ASCII letters that the role names use. -/
def strUpper (s : String) : String := ⟨s.data.map upChar⟩

/-- `str.lower`, restricted to ASCII letters. -/
def strLower (s : String) : String := ⟨s.data.map lowChar⟩

/-- Does `hay` start with `needle`?  (helper for the substring test). -/
def leadsWith : List Char → List Char → Bool
  | _, [] => true
  | [], _ :: _ => false
  | a :: as, b :: bs => a == b && leadsWith as bs

/-- Python's substring operator `needle in hay` on character lists. -/
def hasSub : List Char → List Char → Bool
  | [], needle => leadsWith [] needle
  | hay@(_ :: rest), needle => leadsWith hay needle || hasSub rest needle

/-! ### `role_based_access_control.py` — `RoleBasedAccessControl` -/

/-- The `RolePermission` enumeration (`role_based_access_control.py:5`). -/
inductive RolePermission where
  | CREATE_USER | UPDATE_USER | DELETE_USER | VIEW_USER_PROFILE
  | CREATE_PREDICTION | UPDATE_PREDICTION | DELETE_PREDICTION | VIEW_PREDICTION
  | ADMIN_ACCESS | SYSTEM_CONFIG | AUDIT_LOG_VIEW
deriving DecidableEq, Repr

open RolePermission in
/-- The static `_ROLE_PERMISSIONS` table (`role_based_access_control.py:32`). -/
def ROLE_PERMISSIONS : List (String × List RolePermission) :=
  [("ADMIN",
     [CREATE_USER, UPDATE_USER, DELETE_USER, VIEW_USER_PROFILE,
      CREATE_PREDICTION, UPDATE_PREDICTION, DELETE_PREDICTION, VIEW_PREDICTION,
      ADMIN_ACCESS, SYSTEM_CONFIG, AUDIT_LOG_VIEW]),
   ("ANALYST", [CREATE_PREDICTION, UPDATE_PREDICTION, VIEW_PREDICTION]),
   ("USER", [CREATE_PREDICTION, VIEW_PREDICTION]),
   ("GUEST", [VIEW_PREDICTION])]

/-- `RoleBasedAccessControl.check_permission`: membership in
`_ROLE_PERMISSIONS.get(role.upper(), set())`. -/
def check_permission (role : String) (permission : RolePermission) : Bool :=
  match ROLE_PERMISSIONS.find? (fun p => p.1 == strUpper role) with
  | some p => p.2.contains permission
  | none => false

/-- `RoleBasedAccessControl.get_role_permissions`:
`_ROLE_PERMISSIONS.get(role.upper(), set())`. -/
def get_role_permissions (role : String) : List RolePermission :=
  match ROLE_PERMISSIONS.find? (fun p => p.1 == strUpper role) with
  | some p => p.2
  | none => []

/-- The `role_hierarchy` dict local to `upgrade_user_role`
(`role_based_access_control.py:103`). -/
def role_hierarchy : List (String × List String) :=
  [("GUEST", ["USER", "ANALYST", "ADMIN"]),
   ("USER", ["ANALYST", "ADMIN"]),
   ("ANALYST", ["ADMIN"]),
   ("ADMIN", [])]

/-- `RoleBasedAccessControl.upgrade_user_role`: both arguments are
upper-cased, then `target in role_hierarchy.get(current, [])`. -/
def upgrade_user_role (current_role target_role : String) : Bool :=
  let c := strUpper current_role
  let t := strUpper target_role
  match role_hierarchy.find? (fun p => p.1 == c) with
  | some p => p.2.contains t
  | none => false

/-- The rank of a role in the fixed order GUEST < USER < ANALYST < ADMIN,
`none` for a name outside the hierarchy.  Spec-side comparator for the
`upgrade_user_role` claims. -/
def roleRank (r : String) : Option Nat :=
  if r = "GUEST" then some 0
  else if r = "USER" then some 1
  else if r = "ANALYST" then some 2
  else if r = "ADMIN" then some 3
  else none

/-! ### `password_strength_validator.py` — `PasswordStrengthValidator` -/

/-- The dictionary returned by `validate_password`. -/
structure PasswordValidation where
  length : Bool
  complexity : Bool
  no_common_patterns : Bool
  no_personal_info : Bool
  overall_strength : Bool
deriving DecidableEq, Repr

/-- `re.search` with a character-range class: does the string contain a
character in `[lo-hi]`? -/
def hasCharIn (s : String) (lo hi : Char) : Bool :=
  s.data.any (fun c => decide (lo ≤ c ∧ c ≤ hi))

/-- The special-character class of `_check_complexity`
(`[!@#$%^&*(),.?":{}|<>]`); `Char.ofNat 34/123/125` are `"`, braces. -/
def special_characters : List Char :=
  ['!', '@', '#', '$', '%', '^', '&', '*', '(', ')', ',', '.', '?',
   Char.ofNat 34, ':', Char.ofNat 123, Char.ofNat 125, '|', '<', '>']

/-- `PasswordStrengthValidator._check_complexity`: at least 3 of the 4
class checks succeed. -/
def _check_complexity (password : String) : Bool :=
  let complexity_checks :=
    [hasCharIn password 'A' 'Z',
     hasCharIn password 'a' 'z',
     hasCharIn password '0' '9',
     password.data.any (fun c => special_characters.contains c)]
  3 ≤ complexity_checks.countP id

/-- The `common_patterns` denylist (`password_strength_validator.py:72`). -/
def common_patterns : List String :=
  ["123", "abc", "qwerty", "password", "letmein",
   "admin", "welcome", "login", "111", "000"]

/-- `PasswordStrengthValidator._has_common_patterns`:
`any(pattern in password.lower() for pattern in common_patterns)`. -/
def _has_common_patterns (password : String) : Bool :=
  common_patterns.any (fun pat => hasSub (strLower password).data pat.data)

/-- The `potential_personal_info` list (`password_strength_validator.py:91`). -/
def potential_personal_info : List String :=
  ["birthday", "birthdate", "name", "username", "email", "phone", "address"]

/-- `PasswordStrengthValidator._contains_personal_info`. -/
def _contains_personal_info (password : String) : Bool :=
  potential_personal_info.any (fun info => hasSub (strLower password).data info.data)

/-- `PasswordStrengthValidator.validate_password`.  An empty password is
falsy in Python, so the `if not password` branch returns every criterion
`False`; otherwise `overall_strength` is the conjunction of the four
criteria. -/
def validate_password (password : String) : PasswordValidation :=
  if password = "" then
    ⟨false, false, false, false, false⟩
  else
    let l := decide (12 ≤ password.data.length)
    let c := _check_complexity password
    let ncp := !(_has_common_patterns password)
    let npi := !(_contains_personal_info password)
    ⟨l, c, ncp, npi, l && c && ncp && npi⟩

/-! ### `session_management.py` — `SessionManager` -/

/-- One value of the `_sessions` dict (`session_management.py:50`). -/
structure Session where
  user_id : String
  created_at : Nat
  last_activity : Nat
  ip_address : Option String
  additional_data : List (String × String)
deriving DecidableEq, Repr

/-- The `_sessions` class dict: token ↦ session, in insertion order. -/
abbrev SessionTable := List (String × Session)

/-- `SESSION_TIMEOUT = timedelta(hours=2)`, in seconds. -/
def SESSION_TIMEOUT : Nat := 7200

/-- `MAX_CONCURRENT_SESSIONS = 3`. -/
def MAX_CONCURRENT_SESSIONS : Nat := 3

/-- Python `dict.__setitem__`: overwrite in place when the key exists
(keeping its position), append otherwise. -/
def setTok (tok : String) (s : Session) (tbl : SessionTable) : SessionTable :=
  if tbl.any (fun p => p.1 == tok) then
    tbl.map (fun p => if p.1 == tok then (p.1, s) else p)
  else
    tbl ++ [(tok, s)]

/-- Python `del dict[tok]` (and a no-op when absent, as in
`_invalidate_session`'s guarded delete). -/
def eraseTok (tok : String) (tbl : SessionTable) : SessionTable :=
  tbl.filter (fun p => !(p.1 == tok))

/-- `SessionManager._cleanup_expired_sessions`: delete the sessions with
`now - created_at > SESSION_TIMEOUT` that belong to `uid` (all users when
`uid = none`). -/
def _cleanup_expired_sessions (now : Nat) (uid : Option String) (tbl : SessionTable) :
    SessionTable :=
  tbl.filter (fun p =>
    !(decide (SESSION_TIMEOUT < now - p.2.created_at) &&
      (match uid with
       | none => true
       | some u => p.2.user_id == u)))

/-- The `user_sessions` selection inside `create_session`
(`session_management.py:36`). -/
def user_sessions (uid : String) (tbl : SessionTable) : List (String × Session) :=
  tbl.filter (fun p => p.2.user_id == uid)

/-- Python `min(user_sessions, key=...created_at)`: the first entry
attaining the minimal `created_at` (`min` replaces only on strict `<`). -/
def oldestSession (l : List (String × Session)) : Option (String × Session) :=
  match l with
  | [] => none
  | p :: ps =>
    some (ps.foldl (fun acc q => if q.2.created_at < acc.2.created_at then q else acc) p)

/-- `SessionManager.create_session`, with the fresh `uuid4` token and the
current instant passed explicitly: purge the user's expired sessions,
evict the oldest session when the user already holds
`MAX_CONCURRENT_SESSIONS`, then insert the new record. -/
def create_session (now : Nat) (uid tok : String) (ad : List (String × String))
    (tbl : SessionTable) : SessionTable :=
  let t1 := _cleanup_expired_sessions now (some uid) tbl
  let us := user_sessions uid t1
  let t2 :=
    if MAX_CONCURRENT_SESSIONS ≤ us.length then
      match oldestSession us with
      | some m => eraseTok m.1 t1
      | none => t1
    else t1
  setTok tok ⟨uid, now, now, none, ad⟩ t2

/-- How a `validate_session` call ends: either it returns a result and
leaves the table in some state, or the thread blocks forever with the
table in the state it had when it hung. -/
inductive ValidateOutcome where
  | ret (result : Option Session) (table : SessionTable)
  | deadlocked (table : SessionTable)
deriving DecidableEq, Repr

/-- `SessionManager.validate_session`: `None` for an unknown token;
otherwise refresh `last_activity` and return the record.  On the expired
branch (`session_management.py:81-83`) the code calls
`_invalidate_session` while already holding the class-level
`_session_lock` (line 74); that `threading.Lock` (line 13) is
non-reentrant, so the nested `with cls._session_lock` at line 115 blocks
the same thread forever: the call never returns, and the session is not
deleted (the `del` at line 117 is reached only after the acquisition
that never succeeds).  That path is `deadlocked` with the table
unchanged. -/
def validate_session (now : Nat) (tok : String) (tbl : SessionTable) :
    ValidateOutcome :=
  match tbl.find? (fun p => p.1 == tok) with
  | none => .ret none tbl
  | some m =>
    if SESSION_TIMEOUT < now - m.2.created_at then
      .deadlocked tbl
    else
      let s2 := { m.2 with last_activity := now }
      .ret (some s2) (setTok tok s2 tbl)

/-- The session-table state after a `validate_session` call: on the
deadlocked path the table is exactly as it was when the thread hung. -/
def validate_session_table (now : Nat) (tok : String) (tbl : SessionTable) :
    SessionTable :=
  match validate_session now tok tbl with
  | .ret _ t => t
  | .deadlocked t => t

/-- `SessionManager._invalidate_session`: unconditional, idempotent delete. -/
def _invalidate_session (tok : String) (tbl : SessionTable) : SessionTable :=
  eraseTok tok tbl

/-- `SessionManager.get_active_sessions`: counts every session whose
`user_id` matches — with no expiry filter. -/
def get_active_sessions (uid : String) (tbl : SessionTable) : Nat :=
  (tbl.filter (fun p => p.2.user_id == uid)).length

/-- Spec-side count, following the spec's words: the number of the
identity's sessions whose age does not exceed `SESSION_TIMEOUT`. -/
def nonExpiredSessionCount (now : Nat) (uid : String) (tbl : SessionTable) : Nat :=
  (tbl.filter (fun p =>
    p.2.user_id == uid && !(decide (SESSION_TIMEOUT < now - p.2.created_at)))).length

/-- The identity's sessions already past `SESSION_TIMEOUT`. -/
def expiredSessionCount (now : Nat) (uid : String) (tbl : SessionTable) : Nat :=
  (tbl.filter (fun p =>
    p.2.user_id == uid && decide (SESSION_TIMEOUT < now - p.2.created_at))).length

/-- One call against the shared session table, current instant included. -/
inductive SOp where
  | create (now : Nat) (uid tok : String) (ad : List (String × String))
  | validate (now : Nat) (tok : String)
  | invalidate (tok : String)

/-- Apply one operation to the table (the table a caller observes next). -/
def applyOp (tbl : SessionTable) : SOp → SessionTable
  | .create now uid tok ad => create_session now uid tok ad tbl
  | .validate now tok => validate_session_table now tok tbl
  | .invalidate tok => _invalidate_session tok tbl

/-- Run a call sequence from a starting table. -/
def runOps (ops : List SOp) (tbl : SessionTable) : SessionTable :=
  ops.foldl applyOp tbl

/-! ### `login_attempt_tracker.py` — `LoginAttemptTracker` -/

/-- One element of a `_login_attempts` list. -/
structure Attempt where
  timestamp : Nat
  success : Bool
deriving DecidableEq, Repr

/-- The `_login_attempts` defaultdict: username ↦ attempt list (missing
usernames map to `[]`). -/
abbrev Attempts := String → List Attempt

/-- `MAX_ATTEMPTS = 5`. -/
def MAX_ATTEMPTS : Nat := 5

/-- `LOCKOUT_DURATION = timedelta(minutes=15)`, in seconds. -/
def LOCKOUT_DURATION : Nat := 900

/-- `LoginAttemptTracker.record_login_attempt`: prune the user's history
to the trailing window, then append the new attempt. -/
def record_login_attempt (now : Nat) (username : String) (success : Bool)
    (st : Attempts) : Attempts :=
  fun u =>
    if u = username then
      (st username).filter (fun a => decide (now - a.timestamp < LOCKOUT_DURATION))
        ++ [⟨now, success⟩]
    else st u

/-- `LoginAttemptTracker.is_account_locked`: at least `MAX_ATTEMPTS`
failed attempts inside the trailing window. -/
def is_account_locked (now : Nat) (username : String) (st : Attempts) : Bool :=
  MAX_ATTEMPTS ≤
    ((st username).filter (fun a =>
      !a.success && decide (now - a.timestamp < LOCKOUT_DURATION))).length

/-- `LoginAttemptTracker.reset_login_attempts`. -/
def reset_login_attempts (username : String) (st : Attempts) : Attempts :=
  fun u => if u = username then [] else st u

/-- Spec-side count, following the spec's words: failed records for the
identity whose timestamp lies within the trailing lockout window. -/
def failedRecent (now : Nat) (l : List Attempt) : Nat :=
  l.countP (fun a => a.success = false ∧ now - a.timestamp < LOCKOUT_DURATION)

/-! ### `jwt_middleware.py` — `JWTMiddleware` (over PyJWT HS256 semantics)

`generate_token` and `decode_token` delegate encoding to the PyJWT
library with algorithm `HS256` and a shared secret.  The library is
embedded at the level the middleware relies on: a well-formed token is a
claims payload together with a MAC tag computed from the secret and the
serialized payload; `decode` recomputes and compares the tag before any
claim (in particular `exp`, checked as expired when `exp ≤ now` with zero
leeway) is inspected.  `macTag` is a concrete stand-in for HMAC-SHA-256;
every theorem below uses only that `decode` compares the stored tag with
the recomputed one. -/

/-- The claims payload built by `generate_token`. -/
structure TokenPayload where
  user_id : String
  roles : List String
  exp : Nat
deriving DecidableEq, Repr

/-- `SECRET_KEY` (`jwt_middleware.py:13`). -/
def SECRET_KEY : String := "your_secure_secret_key"

/-- `TOKEN_EXPIRATION = 3600`. -/
def TOKEN_EXPIRATION : Nat := 3600

/-- Canonical serialization of the claims (the signed message). -/
def serializePayload (p : TokenPayload) : String :=
  p.user_id ++ "|" ++ String.intercalate "," p.roles ++ "|" ++ toString p.exp

/-- Keyed MAC over the serialized claims: executable stand-in for the
HMAC-SHA-256 tag PyJWT computes for `HS256`. -/
def macTag (secret msg : String) : Nat :=
  (secret ++ "#" ++ msg).data.foldl (fun h c => (h * 31 + c.toNat) % (2 ^ 64)) 5381

/-- A token string as `decode_token` receives it: either the three-part
structure PyJWT parses (payload and signature), or an unparseable blob. -/
inductive Token where
  | wellFormed (payload : TokenPayload) (sig : Nat)
  | malformed (raw : String)
deriving DecidableEq, Repr

/-- The two PyJWT exceptions `decode_token` re-raises
(`jwt.ExpiredSignatureError` is `jwt.InvalidTokenError`'s subclass named
separately by the claims). -/
inductive DecodeError where
  | invalidToken
  | expiredSignature
deriving DecidableEq, Repr

/-- `JWTMiddleware.generate_token`: claims
`{user_id, roles or [], exp = now + TOKEN_EXPIRATION}` signed with
`SECRET_KEY`. -/
def generate_token (now : Nat) (uid : String) (roles : List String) : Token :=
  let payload : TokenPayload := ⟨uid, roles, now + TOKEN_EXPIRATION⟩
  .wellFormed payload (macTag SECRET_KEY (serializePayload payload))

/-- `JWTMiddleware.decode_token` over PyJWT `HS256` semantics: reject a
malformed token; recompute and compare the tag before touching claims;
then report expiry when `exp ≤ now`. -/
def decode_token (now : Nat) (tok : Token) : Except DecodeError TokenPayload :=
  match tok with
  | .malformed _ => .error .invalidToken
  | .wellFormed payload sig =>
    if sig ≠ macTag SECRET_KEY (serializePayload payload) then
      .error .invalidToken
    else if payload.exp ≤ now then
      .error .expiredSignature
    else
      .ok payload

/-- The session-table well-formedness that every reachable `_sessions`
state enjoys: token keys are distinct (a Python dict) and no identity
holds more than `MAX_CONCURRENT_SESSIONS` sessions. -/
def goodTable (tbl : SessionTable) : Prop :=
  (tbl.map Prod.fst).Nodup ∧
  ∀ uid, get_active_sessions uid tbl ≤ MAX_CONCURRENT_SESSIONS

/-! ## Helper lemmas -/

/-- `Char.toNat` after `Char.ofNat` on a valid code point. -/
theorem toNat_ofNat_valid (n : Nat) (h : n.isValidChar) : (Char.ofNat n).toNat = n := by
  simp [Char.ofNat, Char.ofNatAux, dif_pos h, Char.toNat]
  rfl

/-- Upper-casing never produces a lower-case ASCII letter. -/
theorem upChar_not_lower (c : Char) :
    ¬ (97 ≤ (upChar c).toNat ∧ (upChar c).toNat ≤ 122) := by
  unfold upChar
  split
  · rename_i h
    rw [toNat_ofNat_valid]
    · omega
    · left
      omega
  · rename_i h
    exact h

/-- `str.upper` is idempotent on characters. -/
theorem upChar_idem (c : Char) : upChar (upChar c) = upChar c := by
  nth_rewrite 1 [upChar]
  rw [if_neg (upChar_not_lower c)]

/-- `str.upper` is idempotent. -/
theorem strUpper_idem (s : String) : strUpper (strUpper s) = strUpper s := by
  simp only [strUpper]
  congr 1
  rw [List.map_map]
  apply List.map_congr_left
  intro c _
  exact upChar_idem c

/-! ## C3 — issue/verify round trip -/

/-- C3: decoding a token produced by `generate_token(identity, roles)`, at
any time strictly before the embedded `exp = issue time + TOKEN_EXPIRATION`
and with the same secret, succeeds and yields a payload whose `user_id` is
the identity and whose `roles` are the given roles. -/
theorem c3_decode_of_generate (uid : String) (roles : List String)
    (tIssue tCheck : Nat) (h : tCheck < tIssue + TOKEN_EXPIRATION) :
    decode_token tCheck (generate_token tIssue uid roles) =
      .ok ⟨uid, roles, tIssue + TOKEN_EXPIRATION⟩ := by
  unfold decode_token generate_token
  simp only [ne_eq, not_true_eq_false, if_false]
  rw [if_neg (by omega)]

/-- Witness for C3 at a concrete identity, role list and pair of instants. -/
theorem c3_decode_of_generate_witness :
    100 < 0 + TOKEN_EXPIRATION ∧
      decode_token 100 (generate_token 0 "bob" ["USER"]) =
        .ok ⟨"bob", ["USER"], 0 + TOKEN_EXPIRATION⟩ :=
  ⟨by decide, c3_decode_of_generate "bob" ["USER"] 0 100 (by decide)⟩

/-! ## C4 — decode failure modes -/

/-- C4: `decode_token` answers `InvalidTokenError` on a malformed token
and on any signature that differs from the recomputed one — in particular
on any alteration of a validly issued token's signature; it answers
`ExpiredTokenError` on a correctly signed token whose `exp` is past; and
it never returns a payload whose signature did not verify. -/
theorem c4_decode_rejects :
    (∀ now raw, decode_token now (.malformed raw) = .error .invalidToken) ∧
    (∀ now payload sig, sig ≠ macTag SECRET_KEY (serializePayload payload) →
      decode_token now (.wellFormed payload sig) = .error .invalidToken) ∧
    (∀ now uid roles tIssue payload sig,
      generate_token tIssue uid roles = .wellFormed payload sig →
      ∀ sig2, sig2 ≠ sig →
        decode_token now (.wellFormed payload sig2) = .error .invalidToken) ∧
    (∀ now payload sig, sig = macTag SECRET_KEY (serializePayload payload) →
      payload.exp < now →
      decode_token now (.wellFormed payload sig) = .error .expiredSignature) ∧
    (∀ now tok p, decode_token now tok = .ok p →
      ∃ sig, tok = .wellFormed p sig ∧ sig = macTag SECRET_KEY (serializePayload p)) := by
  refine ⟨fun _ _ => rfl, ?_, ?_, ?_, ?_⟩
  · intro now payload sig h
    simp only [decode_token]
    rw [if_pos h]
  · intro now uid roles tIssue payload sig hgen sig2 hne
    simp only [generate_token] at hgen
    injection hgen with h1 h2
    have hcond : sig2 ≠ macTag SECRET_KEY (serializePayload payload) := by
      rw [← h1, h2]
      exact hne
    simp only [decode_token]
    rw [if_pos hcond]
  · intro now payload sig hsig hexp
    simp only [decode_token]
    rw [if_neg (by simp [hsig]), if_pos (by omega)]
  · intro now tok p h
    cases tok with
    | malformed raw => exact absurd h (by simp [decode_token])
    | wellFormed payload sig =>
      simp only [decode_token] at h
      split at h
      · exact absurd h (by simp)
      · split at h
        · exact absurd h (by simp)
        · injection h with hp
          subst hp
          rename_i hsig hexp
          exact ⟨sig, rfl, not_not.mp hsig⟩

/-- Witness for C4: each failure mode exercised at a concrete token. -/
theorem c4_decode_rejects_witness :
    decode_token 5 (.malformed "garbage") = .error .invalidToken ∧
    decode_token 5 (.wellFormed ⟨"bob", ["USER"], 3600⟩ 0) = .error .invalidToken ∧
    decode_token 5 (.wellFormed ⟨"bob", ["USER"], 0 + TOKEN_EXPIRATION⟩
        (macTag SECRET_KEY (serializePayload ⟨"bob", ["USER"], 0 + TOKEN_EXPIRATION⟩) + 1)) =
      .error .invalidToken ∧
    decode_token 11 (.wellFormed ⟨"bob", ["USER"], 10⟩
        (macTag SECRET_KEY (serializePayload ⟨"bob", ["USER"], 10⟩))) =
      .error .expiredSignature ∧
    ∃ sig, Token.wellFormed ⟨"bob", [], 0 + TOKEN_EXPIRATION⟩
          (macTag SECRET_KEY (serializePayload ⟨"bob", [], 0 + TOKEN_EXPIRATION⟩)) =
        .wellFormed ⟨"bob", [], 0 + TOKEN_EXPIRATION⟩ sig ∧
      sig = macTag SECRET_KEY (serializePayload ⟨"bob", [], 0 + TOKEN_EXPIRATION⟩) :=
  ⟨c4_decode_rejects.1 5 "garbage",
   c4_decode_rejects.2.1 5 ⟨"bob", ["USER"], 3600⟩ 0 (by decide),
   c4_decode_rejects.2.2.1 5 "bob" ["USER"] 0 _ _ rfl _ (Nat.succ_ne_self _),
   c4_decode_rejects.2.2.2.1 11 ⟨"bob", ["USER"], 10⟩ _ rfl (by decide),
   c4_decode_rejects.2.2.2.2 5 _ _ rfl⟩

/-! ## C9 — RBAC role arguments are case-insensitive, unknown role fails closed -/

/-- C9: `check_permission`, `get_role_permissions` and `upgrade_user_role`
give the same answers when their role arguments are upper-cased, and a
role unknown to the permission table yields `false` / the empty
permission set rather than an error. -/
theorem c9_rbac_case_insensitive (role f t : String) (perm : RolePermission) :
    check_permission role perm = check_permission (strUpper role) perm ∧
    get_role_permissions role = get_role_permissions (strUpper role) ∧
    upgrade_user_role f t = upgrade_user_role (strUpper f) (strUpper t) ∧
    (ROLE_PERMISSIONS.find? (fun p => p.1 == strUpper role) = none →
      check_permission role perm = false ∧ get_role_permissions role = []) := by
  refine ⟨?_, ?_, ?_, ?_⟩
  · simp only [check_permission, strUpper_idem]
  · simp only [get_role_permissions, strUpper_idem]
  · simp only [upgrade_user_role, strUpper_idem]
  · intro h
    constructor
    · simp only [check_permission, h]
    · simp only [get_role_permissions, h]

/-- Witness for C9 at the unknown role `"WIZARD"` and mixed-case roles. -/
theorem c9_rbac_case_insensitive_witness :
    check_permission "WIZARD" RolePermission.ADMIN_ACCESS = false ∧
      get_role_permissions "WIZARD" = [] :=
  (c9_rbac_case_insensitive "WIZARD" "guest" "admin" RolePermission.ADMIN_ACCESS).2.2.2
    (by decide)

/-! ## C8 — `upgrade_user_role` is strict-increase in the role order -/

set_option maxHeartbeats 1000000 in
/-- The hierarchy lookup of `upgrade_user_role` agrees with the rank
order, for arbitrary (already upper-cased) role strings. -/
theorem upgrade_lookup_iff_rank (c d : String) :
    (match role_hierarchy.find? (fun p => p.1 == c) with
     | some p => p.2.contains d
     | none => false) = true ↔
    ∃ rc rd, roleRank c = some rc ∧ roleRank d = some rd ∧ rc < rd := by
  by_cases h1 : c = "GUEST"
  · subst h1
    by_cases g1 : d = "GUEST" <;> by_cases g2 : d = "USER" <;>
      by_cases g3 : d = "ANALYST" <;> by_cases g4 : d = "ADMIN" <;>
      simp_all [role_hierarchy, roleRank, List.find?]
  · by_cases h2 : c = "USER"
    · subst h2
      by_cases g1 : d = "GUEST" <;> by_cases g2 : d = "USER" <;>
        by_cases g3 : d = "ANALYST" <;> by_cases g4 : d = "ADMIN" <;>
        simp_all [role_hierarchy, roleRank, List.find?]
    · by_cases h3 : c = "ANALYST"
      · subst h3
        by_cases g1 : d = "GUEST" <;> by_cases g2 : d = "USER" <;>
          by_cases g3 : d = "ANALYST" <;> by_cases g4 : d = "ADMIN" <;>
          simp_all [role_hierarchy, roleRank, List.find?]
      · by_cases h4 : c = "ADMIN"
        · subst h4
          simp [role_hierarchy, roleRank, List.find?]
          intro x hx
          split_ifs at hx <;> simp_all <;> omega
        · have hfind : role_hierarchy.find? (fun p => p.1 == c) = none := by
            simp [role_hierarchy, List.find?,
              beq_eq_false_iff_ne.mpr (Ne.symm h1),
              beq_eq_false_iff_ne.mpr (Ne.symm h2),
              beq_eq_false_iff_ne.mpr (Ne.symm h3),
              beq_eq_false_iff_ne.mpr (Ne.symm h4)]
          rw [hfind]
          simp [roleRank, h1, h2, h3, h4]

/-- C8: `upgrade_user_role(fromRole, toRole)` is true iff both roles are
known to the hierarchy (role names are recognised up to case, hence the
upper-casing) and `toRole` ranks strictly higher in
GUEST < USER < ANALYST < ADMIN; the spec's three sample calls hold. -/
theorem c8_upgrade_iff_strictly_higher :
    (∀ f t, upgrade_user_role f t = true ↔
      ∃ rf rt, roleRank (strUpper f) = some rf ∧ roleRank (strUpper t) = some rt ∧
        rf < rt) ∧
    upgrade_user_role "GUEST" "ADMIN" = true ∧
    upgrade_user_role "ADMIN" "USER" = false ∧
    upgrade_user_role "ADMIN" "ADMIN" = false := by
  refine ⟨?_, by decide, by decide, by decide⟩
  intro f t
  simpa [upgrade_user_role] using upgrade_lookup_iff_rank (strUpper f) (strUpper t)

/-! ## C5 — `validate_session` outcome characterisation -/

/-- C5 (code bug): for a live token `validate_session` refreshes
`last_activity` (expiry is measured from `created_at` only) and returns
the record, and for an unknown token it returns `None` leaving the table
unchanged; but for an expired token it never returns at all — the nested
acquisition of the non-reentrant class lock inside
`_invalidate_session` deadlocks — so in particular the `None` the claim
describes is never produced. -/
theorem c5_validate_expired_never_returns :
    (∀ (now : Nat) (tok : String) (tbl : SessionTable) m,
      tbl.find? (fun p => p.1 == tok) = some m →
      ¬ SESSION_TIMEOUT < now - m.2.created_at →
      validate_session now tok tbl =
        .ret (some { m.2 with last_activity := now })
          (setTok tok { m.2 with last_activity := now } tbl)) ∧
    (∀ (now : Nat) (tok : String) (tbl : SessionTable),
      tbl.find? (fun p => p.1 == tok) = none →
      validate_session now tok tbl = .ret none tbl) ∧
    (∀ (now : Nat) (tok : String) (tbl : SessionTable) m,
      tbl.find? (fun p => p.1 == tok) = some m →
      SESSION_TIMEOUT < now - m.2.created_at →
      ∀ r t2, validate_session now tok tbl ≠ .ret r t2) := by
  refine ⟨?_, ?_, ?_⟩
  · intro now tok tbl m hfind hexp
    simp [validate_session, hfind, hexp]
  · intro now tok tbl hfind
    simp [validate_session, hfind]
  · intro now tok tbl m hfind hexp r t2 hcontra
    simp [validate_session, hfind, hexp] at hcontra

/-- Witness for C5: the live and unknown-token paths at concrete inputs,
and the expired path at instant 7201 not producing the return the
original claim asserts. -/
theorem c5_validate_expired_never_returns_witness :
    validate_session 10 "tk" [("tk", ⟨"alice", 0, 0, none, []⟩)] =
      .ret (some ⟨"alice", 0, 10, none, []⟩)
        (setTok "tk" ⟨"alice", 0, 10, none, []⟩
          [("tk", ⟨"alice", 0, 0, none, []⟩)]) ∧
    validate_session 10 "zz" [("tk", ⟨"alice", 0, 0, none, []⟩)] =
      .ret none [("tk", ⟨"alice", 0, 0, none, []⟩)] ∧
    validate_session 7201 "tk" [("tk", ⟨"alice", 0, 0, none, []⟩)] ≠
      .ret none (eraseTok "tk" [("tk", ⟨"alice", 0, 0, none, []⟩)]) :=
  ⟨c5_validate_expired_never_returns.1 10 "tk" [("tk", ⟨"alice", 0, 0, none, []⟩)]
     ("tk", ⟨"alice", 0, 0, none, []⟩) rfl (by decide),
   c5_validate_expired_never_returns.2.1 10 "zz"
     [("tk", ⟨"alice", 0, 0, none, []⟩)] rfl,
   c5_validate_expired_never_returns.2.2 7201 "tk"
     [("tk", ⟨"alice", 0, 0, none, []⟩)] ("tk", ⟨"alice", 0, 0, none, []⟩)
     rfl (by decide) none (eraseTok "tk" [("tk", ⟨"alice", 0, 0, none, []⟩)])⟩

/-! ## C10 — frame conditions of `validate_session` -/

/-- Deleting one token leaves every other token's lookup unchanged. -/
theorem find?_eraseTok_of_ne (tok tok2 : String) (h : tok2 ≠ tok) (tbl : SessionTable) :
    (eraseTok tok tbl).find? (fun p => p.1 == tok2) =
      tbl.find? (fun p => p.1 == tok2) := by
  simp only [eraseTok]
  induction tbl with
  | nil => rfl
  | cons p rest ih =>
    rw [List.filter_cons, List.find?_cons]
    by_cases hp : p.1 = tok
    · have hb1 : (!(p.1 == tok)) = false := by simp [hp]
      have hb2 : (p.1 == tok2) = false := by
        rw [hp]
        exact beq_eq_false_iff_ne.mpr (Ne.symm h)
      simpa [hb1, hb2] using ih
    · have hb1 : (!(p.1 == tok)) = true := by simp [hp]
      by_cases hq : p.1 = tok2
      · have hb2 : (p.1 == tok2) = true := by simp [hq]
        simp [hb1, hb2]
      · have hb2 : (p.1 == tok2) = false := by simp [hq]
        simpa [hb1, hb2] using ih

/-- After deleting a token, looking it up fails. -/
theorem find?_eraseTok_self (tok : String) (tbl : SessionTable) :
    (eraseTok tok tbl).find? (fun p => p.1 == tok) = none := by
  apply List.find?_eq_none.mpr
  intro p hp
  have := List.of_mem_filter hp
  simpa using this

/-- With distinct keys, deleting a present entry's token removes exactly
one record. -/
theorem length_eraseTok_mem (tbl : SessionTable) (m : String × Session)
    (hm : m ∈ tbl) (hnd : (tbl.map Prod.fst).Nodup) :
    (eraseTok m.1 tbl).length + 1 = tbl.length := by
  induction tbl with
  | nil => cases hm
  | cons p rest ih =>
    rw [List.map_cons, List.nodup_cons] at hnd
    rcases hnd with ⟨hp, hnd⟩
    rcases List.mem_cons.mp hm with rfl | hm2
    · have hrest : eraseTok m.1 rest = rest := by
        apply List.filter_eq_self.mpr
        intro q hq
        have hne : q.1 ≠ m.1 := by
          intro h
          exact hp (h ▸ List.mem_map_of_mem Prod.fst hq)
        simpa using hne
      rw [eraseTok] at hrest
      rw [eraseTok, List.filter_cons_of_neg (by simp), hrest, List.length_cons]
    · have hne : ¬ p.1 = m.1 := by
        intro h
        exact hp (h ▸ List.mem_map_of_mem Prod.fst hm2)
      rw [eraseTok, List.filter_cons_of_pos (by simp [hne]), List.length_cons,
        List.length_cons]
      have := ih hm2 hnd
      rw [eraseTok] at this
      omega

/-- C10 (code bug): an unknown token leaves the entire table untouched;
but for an expired token the call deadlocks with the table exactly as it
was when the thread hung — no session is removed and no result is ever
returned. -/
theorem c10_validate_frame_deadlock :
    (∀ (now : Nat) (tok : String) (tbl : SessionTable),
      tbl.find? (fun p => p.1 == tok) = none →
      validate_session now tok tbl = .ret none tbl) ∧
    (∀ (now : Nat) (tok : String) (tbl : SessionTable) m,
      tbl.find? (fun p => p.1 == tok) = some m →
      SESSION_TIMEOUT < now - m.2.created_at →
      validate_session now tok tbl = .deadlocked tbl ∧
      validate_session_table now tok tbl = tbl) := by
  constructor
  · intro now tok tbl hfind
    simp [validate_session, hfind]
  · intro now tok tbl m hfind hexp
    constructor
    · simp [validate_session, hfind, hexp]
    · simp [validate_session_table, validate_session, hfind, hexp]

/-- Witness for C10: an unknown token at a concrete table, and an
expired token among two sessions hanging with both records still
present. -/
theorem c10_validate_frame_deadlock_witness :
    validate_session 10 "zz" [("tk", ⟨"alice", 0, 0, none, []⟩)] =
      .ret none [("tk", ⟨"alice", 0, 0, none, []⟩)] ∧
    validate_session 7300 "tk"
        [("a", ⟨"ann", 200, 200, none, []⟩), ("tk", ⟨"bob", 0, 0, none, []⟩)] =
      .deadlocked
        [("a", ⟨"ann", 200, 200, none, []⟩), ("tk", ⟨"bob", 0, 0, none, []⟩)] ∧
    validate_session_table 7300 "tk"
        [("a", ⟨"ann", 200, 200, none, []⟩), ("tk", ⟨"bob", 0, 0, none, []⟩)] =
      [("a", ⟨"ann", 200, 200, none, []⟩), ("tk", ⟨"bob", 0, 0, none, []⟩)] :=
  have h := c10_validate_frame_deadlock.2 7300 "tk"
    [("a", ⟨"ann", 200, 200, none, []⟩), ("tk", ⟨"bob", 0, 0, none, []⟩)]
    ("tk", ⟨"bob", 0, 0, none, []⟩) rfl (by decide)
  ⟨c10_validate_frame_deadlock.1 10 "zz" [("tk", ⟨"alice", 0, 0, none, []⟩)] rfl,
   h.1, h.2⟩

/-! ## C6 — `get_active_sessions` counts expired sessions too -/

/-- Splitting a filtered count along a second predicate. -/
theorem length_filter_split {α : Type} (p q : α → Bool) (l : List α) :
    (l.filter p).length =
      (l.filter (fun a => p a && q a)).length +
        (l.filter (fun a => p a && !q a)).length := by
  induction l with
  | nil => rfl
  | cons a rest ih =>
    rw [List.filter_cons, List.filter_cons, List.filter_cons]
    cases hp : p a <;> cases hq : q a <;> simp [hp, hq] <;> omega

/-- C6 counterexample: a single two-hour-old session is counted by
`get_active_sessions` although, at instant 7201, the number of the
identity's sessions whose age does not exceed `SESSION_TIMEOUT` is zero. -/
theorem c6_counterexample :
    get_active_sessions "alice" [("tk", ⟨"alice", 0, 0, none, []⟩)] = 1 ∧
    nonExpiredSessionCount 7201 "alice" [("tk", ⟨"alice", 0, 0, none, []⟩)] = 0 := by
  decide

/-- C6 (amended): `get_active_sessions` returns the total number of the
identity's sessions in the table — at every instant, the non-expired
count plus the count of sessions already past `SESSION_TIMEOUT`. -/
theorem c6_get_active_counts_all (now : Nat) (uid : String) (tbl : SessionTable) :
    get_active_sessions uid tbl =
      nonExpiredSessionCount now uid tbl + expiredSessionCount now uid tbl := by
  unfold get_active_sessions nonExpiredSessionCount expiredSessionCount
  rw [length_filter_split (fun p => p.2.user_id == uid)
    (fun p => decide (SESSION_TIMEOUT < now - p.2.created_at)) tbl]
  omega

/-! ## C7 — `validate_password` criteria -/

/-- C7 counterexample: the empty password takes the falsy early-return
branch, so its `no_common_patterns` field is `false` even though the
lowercased empty password contains no denylisted substring. -/
theorem c7_counterexample_empty :
    (validate_password "").no_common_patterns = false ∧
    ¬ ∃ pat ∈ common_patterns, hasSub (strLower "").data pat.data = true := by
  decide

/-- C7 (amended): for every non-empty password the returned fields agree
with the spec's criteria — `length` iff ≥ 12 characters, `complexity` iff
at least 3 of the 4 character classes occur, `no_common_patterns` false
iff the lowercased password contains a denylisted substring, and
`overall_strength` the conjunction of the four criteria; the empty
password returns every field `false`; and the spec's two sample
assessments hold. -/
theorem c7_validate_password (p : String) :
    (p ≠ "" →
      ((validate_password p).length = true ↔ 12 ≤ p.data.length) ∧
      ((validate_password p).complexity = true ↔
        3 ≤ ([hasCharIn p 'A' 'Z', hasCharIn p 'a' 'z', hasCharIn p '0' '9',
              p.data.any (fun c => special_characters.contains c)].countP id)) ∧
      ((validate_password p).no_common_patterns = false ↔
        ∃ pat ∈ common_patterns, hasSub (strLower p).data pat.data = true) ∧
      ((validate_password p).overall_strength = true ↔
        (validate_password p).length = true ∧
        (validate_password p).complexity = true ∧
        (validate_password p).no_common_patterns = true ∧
        (validate_password p).no_personal_info = true)) ∧
    (p = "" → validate_password p = ⟨false, false, false, false, false⟩) ∧
    (validate_password "password123").overall_strength = false ∧
    (validate_password "Tr0ub4dor&3XQ!").overall_strength = true := by
  refine ⟨?_, ?_, by decide, by decide⟩
  · intro hne
    unfold validate_password
    rw [if_neg hne]
    refine ⟨by simp, ?_, ?_, ?_⟩
    · simp [_check_complexity]
    · simp [_has_common_patterns, List.any_eq_true]
    · simp [Bool.and_eq_true, and_assoc]
  · intro he
    rw [he]
    rfl

/-- Witness for C7 at a concrete non-empty and the empty password. -/
theorem c7_validate_password_witness :
    ((validate_password "Password1!").no_common_patterns = false ↔
      ∃ pat ∈ common_patterns, hasSub (strLower "Password1!").data pat.data = true) ∧
    validate_password "" = ⟨false, false, false, false, false⟩ :=
  ⟨((c7_validate_password "Password1!").1 (by decide)).2.2.1,
   (c7_validate_password "").2.1 rfl⟩

/-! ## C2 — lockout window -/

/-- Filtering by `q` then by a conjunction with `q` ignores the first
pass. -/
theorem filter_and_absorb {α : Type} (p q : α → Bool) (l : List α) :
    (l.filter q).filter (fun a => p a && q a) = l.filter (fun a => p a && q a) := by
  induction l with
  | nil => rfl
  | cons a rest ih =>
    cases hq : q a <;> cases hp : p a <;>
      simp [List.filter_cons, hq, hp, ih]

/-- C2: `is_account_locked` is true exactly when at least `MAX_ATTEMPTS`
failed records fall inside the trailing `LOCKOUT_DURATION`; five failed
records inside one window lock the account; and recording a further
successful attempt at the same instant never unlocks it by itself. -/
theorem c2_lockout :
    (∀ now u st, is_account_locked now u st = true ↔
      MAX_ATTEMPTS ≤ failedRecent now (st u)) ∧
    (∀ (u : String) (t1 t2 t3 t4 t5 : Nat), t1 ≤ t2 → t2 ≤ t3 → t3 ≤ t4 → t4 ≤ t5 →
      t5 - t1 < LOCKOUT_DURATION →
      is_account_locked t5 u (record_login_attempt t5 u false
        (record_login_attempt t4 u false (record_login_attempt t3 u false
          (record_login_attempt t2 u false (record_login_attempt t1 u false
            (fun _ => [])))))) = true) ∧
    (∀ now u st, is_account_locked now u st = true →
      is_account_locked now u (record_login_attempt now u true st) = true) := by
  refine ⟨?_, ?_, ?_⟩
  · intro now u st
    unfold is_account_locked failedRecent
    rw [List.countP_eq_length_filter]
    have hpred :
        (fun a : Attempt =>
          decide (a.success = false ∧ now - a.timestamp < LOCKOUT_DURATION)) =
        (fun a : Attempt =>
          !a.success && decide (now - a.timestamp < LOCKOUT_DURATION)) := by
      funext a
      cases hs : a.success <;> simp [hs]
    rw [hpred]
    simp
  · intro u t1 t2 t3 t4 t5 h12 h23 h34 h45 hw
    have k21 : t2 - t1 < LOCKOUT_DURATION := by omega
    have k31 : t3 - t1 < LOCKOUT_DURATION := by omega
    have k32 : t3 - t2 < LOCKOUT_DURATION := by omega
    have k41 : t4 - t1 < LOCKOUT_DURATION := by omega
    have k42 : t4 - t2 < LOCKOUT_DURATION := by omega
    have k43 : t4 - t3 < LOCKOUT_DURATION := by omega
    have k51 : t5 - t1 < LOCKOUT_DURATION := by omega
    have k52 : t5 - t2 < LOCKOUT_DURATION := by omega
    have k53 : t5 - t3 < LOCKOUT_DURATION := by omega
    have k54 : t5 - t4 < LOCKOUT_DURATION := by omega
    have k0 : 0 < LOCKOUT_DURATION := by omega
    simp [is_account_locked, record_login_attempt, List.filter_cons, MAX_ATTEMPTS,
      k21, k31, k32, k41, k42, k43, k51, k52, k53, k54, k0]
  · intro now u st h
    unfold is_account_locked at h ⊢
    have hrw : (record_login_attempt now u true st) u =
        (st u).filter (fun a => decide (now - a.timestamp < LOCKOUT_DURATION))
          ++ [⟨now, true⟩] := by
      unfold record_login_attempt
      simp
    rw [hrw, List.filter_append]
    have h2 : List.filter
        (fun a => !a.success && decide (now - a.timestamp < LOCKOUT_DURATION))
        [⟨now, true⟩] = ([] : List Attempt) := by
      simp [List.filter_cons]
    rw [h2, List.append_nil,
      filter_and_absorb (fun a => !a.success)
        (fun a => decide (now - a.timestamp < LOCKOUT_DURATION)) (st u)]
    exact h

/-- Witness for C2: five failed attempts at instants 0–4 lock `"u"`, and
a successful attempt at instant 4 leaves it locked. -/
theorem c2_lockout_witness :
    is_account_locked 4 "u" (record_login_attempt 4 "u" false
      (record_login_attempt 3 "u" false (record_login_attempt 2 "u" false
        (record_login_attempt 1 "u" false (record_login_attempt 0 "u" false
          (fun _ => [])))))) = true ∧
    is_account_locked 4 "u" (record_login_attempt 4 "u" true
      (record_login_attempt 4 "u" false (record_login_attempt 3 "u" false
        (record_login_attempt 2 "u" false (record_login_attempt 1 "u" false
          (record_login_attempt 0 "u" false (fun _ => []))))))) = true :=
  have hlocked := c2_lockout.2.1 "u" 0 1 2 3 4 (by decide) (by decide) (by decide)
    (by decide) (by decide)
  ⟨hlocked, c2_lockout.2.2 4 "u" _ hlocked⟩

/-! ## C1 — session-table lemmas -/

/-- A pre-filter never increases a filtered count. -/
theorem length_filter_filter_le {α : Type} (p q : α → Bool) (l : List α) :
    ((l.filter p).filter q).length ≤ (l.filter q).length := by
  induction l with
  | nil => exact Nat.le_refl _
  | cons a rest ih =>
    cases hp : p a <;> cases hq : q a <;>
      simp [List.filter_cons, hp, hq, -List.filter_filter] <;> omega

/-- Filtering the table never increases an identity's session count. -/
theorem get_active_filter_le (uid : String) (p : String × Session → Bool)
    (tbl : SessionTable) :
    get_active_sessions uid (tbl.filter p) ≤ get_active_sessions uid tbl := by
  unfold get_active_sessions
  exact length_filter_filter_le p _ tbl

/-- Erasing a session of the identity drops its count by at least one. -/
theorem get_active_erase_lt (uid : String) (tbl : SessionTable) (m : String × Session)
    (hm : m ∈ user_sessions uid tbl) :
    get_active_sessions uid (eraseTok m.1 tbl) + 1 ≤ get_active_sessions uid tbl := by
  unfold user_sessions at hm
  unfold get_active_sessions eraseTok
  induction tbl with
  | nil => simp at hm
  | cons p rest ih =>
    rw [List.mem_filter] at hm
    obtain ⟨hmem, hmu⟩ := hm
    rcases List.mem_cons.mp hmem with rfl | hm2
    · have hll := length_filter_filter_le (fun q => !(q.1 == m.1))
        (fun q => q.2.user_id == uid) rest
      simp [List.filter_cons, hmu, -List.filter_filter]
      omega
    · have hrec := ih (List.mem_filter.mpr ⟨hm2, hmu⟩)
      cases hb : (p.1 == m.1) <;> cases hu : (p.2.user_id == uid) <;>
        simp [List.filter_cons, hb, hu, -List.filter_filter] <;> omega

/-- Counting after a map that only loses matches. -/
theorem length_filter_map_le {α : Type} (f : α → α) (q : α → Bool) (l : List α)
    (h : ∀ a ∈ l, q (f a) = true → q a = true) :
    ((l.map f).filter q).length ≤ (l.filter q).length := by
  induction l with
  | nil => exact Nat.le_refl _
  | cons a rest ih =>
    have ih2 := ih (fun x hx => h x (List.mem_cons_of_mem _ hx))
    cases hfa : q (f a)
    · cases hqa : q a <;>
        simp [List.map_cons, List.filter_cons, hfa, hqa,
          -List.filter_filter] <;> omega
    · have hqa : q a = true := h a (List.mem_cons_self a rest) hfa
      simp [List.map_cons, List.filter_cons, hfa, hqa,
        -List.filter_filter]
      omega

/-- The first-minimum fold of `oldestSession` lands in the candidates. -/
theorem foldlMin_mem (ps : List (String × Session)) :
    ∀ a, ps.foldl
        (fun acc q => if q.2.created_at < acc.2.created_at then q else acc) a ∈
      a :: ps := by
  induction ps with
  | nil =>
    intro a
    simp
  | cons q qs ih =>
    intro a
    rw [List.foldl_cons]
    have h1 := ih (if q.2.created_at < a.2.created_at then q else a)
    rcases List.mem_cons.mp h1 with he | hm
    · rw [he]
      by_cases hc : q.2.created_at < a.2.created_at <;> simp [hc]
    · exact List.mem_cons_of_mem _ (List.mem_cons_of_mem _ hm)

/-- The first-minimum fold of `oldestSession` bounds every candidate. -/
theorem foldlMin_le (ps : List (String × Session)) :
    ∀ a, ∀ q ∈ a :: ps,
      (ps.foldl
        (fun acc r => if r.2.created_at < acc.2.created_at then r else acc) a).2.created_at ≤
      q.2.created_at := by
  induction ps with
  | nil =>
    intro a q hq
    rcases List.mem_cons.mp hq with rfl | h
    · exact Nat.le_refl _
    · cases h
  | cons r rs ih =>
    intro a q hq
    rw [List.foldl_cons]
    have hstep_a : (if r.2.created_at < a.2.created_at then r else a).2.created_at ≤
        a.2.created_at := by
      by_cases hc : r.2.created_at < a.2.created_at <;> simp [hc]
      omega
    have hstep_r : (if r.2.created_at < a.2.created_at then r else a).2.created_at ≤
        r.2.created_at := by
      by_cases hc : r.2.created_at < a.2.created_at <;> simp [hc]
      omega
    rcases List.mem_cons.mp hq with rfl | hq2
    · exact le_trans (ih _ _ (List.mem_cons_self _ _)) hstep_a
    · rcases List.mem_cons.mp hq2 with rfl | hq3
      · exact le_trans (ih _ _ (List.mem_cons_self _ _)) hstep_r
      · exact ih _ q (List.mem_cons_of_mem _ hq3)

/-- `oldestSession` of a non-empty list returns a member with minimal
`created_at` (Python `min` keeps the first minimum). -/
theorem oldestSession_spec (l : List (String × Session)) (hne : l ≠ []) :
    ∃ m, oldestSession l = some m ∧ m ∈ l ∧
      ∀ q ∈ l, m.2.created_at ≤ q.2.created_at := by
  match l with
  | [] => exact absurd rfl hne
  | p :: ps =>
    exact ⟨_, rfl, foldlMin_mem ps p, foldlMin_le ps p⟩

/-- Keys of a filtered table stay distinct. -/
theorem keys_filter_nodup (p : String × Session → Bool) (tbl : SessionTable)
    (hnd : (tbl.map Prod.fst).Nodup) : ((tbl.filter p).map Prod.fst).Nodup :=
  hnd.sublist ((List.filter_sublist tbl).map Prod.fst)

/-- `setTok` keeps the table's keys distinct. -/
theorem keys_setTok_nodup (tok : String) (s : Session) (tbl : SessionTable)
    (hnd : (tbl.map Prod.fst).Nodup) :
    ((setTok tok s tbl).map Prod.fst).Nodup := by
  unfold setTok
  split
  · have hkeys :
        (tbl.map (fun p => if p.1 == tok then (p.1, s) else p)).map Prod.fst =
          tbl.map Prod.fst := by
      rw [List.map_map]
      apply List.map_congr_left
      intro a _
      by_cases hb : a.1 = tok <;> simp [hb]
    rwa [hkeys]
  · rename_i hany
    rw [List.map_append]
    rw [List.nodup_append]
    refine ⟨hnd, List.nodup_singleton _, ?_⟩
    intro k hk
    simp only [List.map_cons, List.map_nil, List.mem_singleton]
    intro hkeq
    subst hkeq
    rw [List.mem_map] at hk
    obtain ⟨q, hq, hqk⟩ := hk
    rw [List.any_eq_true] at hany
    exact hany ⟨q, hq, by simp [hqk]⟩

/-- With distinct keys, the in-place overwrite of `setTok` adds at most
one session for any identity. -/
theorem get_active_replace_le (uid tok : String) (s : Session) (tbl : SessionTable)
    (hnd : (tbl.map Prod.fst).Nodup) :
    get_active_sessions uid
        (tbl.map (fun p => if p.1 == tok then (p.1, s) else p)) ≤
      get_active_sessions uid tbl + 1 := by
  induction tbl with
  | nil => simp [get_active_sessions]
  | cons p rest ih =>
    rw [List.map_cons, List.nodup_cons] at hnd
    obtain ⟨hp, hnd⟩ := hnd
    cases hb : (p.1 == tok)
    · have hrec := ih hnd
      unfold get_active_sessions at hrec ⊢
      rw [List.map_cons]
      simp only [hb]
      cases hu : (p.2.user_id == uid) <;>
        simp [List.filter_cons, hu, -List.filter_filter] at hrec ⊢ <;>
        omega
    · have hkey : p.1 = tok := by simpa using hb
      have hrest : rest.map (fun q => if q.1 == tok then (q.1, s) else q) = rest := by
        have hid : ∀ q ∈ rest,
            (if q.1 == tok then (q.1, s) else q) = (fun q => q) q := by
          intro q hq
          have hne : ¬ q.1 = tok := by
            intro he
            exact hp (by
              rw [hkey, ← he]
              exact List.mem_map_of_mem Prod.fst hq)
          simp [hne]
        rw [List.map_congr_left hid]
        simp
      unfold get_active_sessions
      rw [List.map_cons]
      simp only [hb]
      rw [hrest]
      cases hu1 : (s.user_id == uid) <;> cases hu2 : (p.2.user_id == uid) <;>
        (simp [List.filter_cons, hu1, hu2, -List.filter_filter]
         try omega)

/-- With distinct keys, overwriting the entry that `find?` returns with a
session of the same identity keeps every identity's count unchanged. -/
theorem get_active_replace_found (uid tok : String) (s2 : Session) (tbl : SessionTable)
    (hnd : (tbl.map Prod.fst).Nodup) (m : String × Session)
    (hfind : tbl.find? (fun p => p.1 == tok) = some m)
    (hsame : s2.user_id = m.2.user_id) :
    get_active_sessions uid
        (tbl.map (fun p => if p.1 == tok then (p.1, s2) else p)) =
      get_active_sessions uid tbl := by
  induction tbl with
  | nil => simp at hfind
  | cons p rest ih =>
    rw [List.map_cons, List.nodup_cons] at hnd
    obtain ⟨hp, hnd⟩ := hnd
    cases hb : (p.1 == tok)
    · have hfind2 : rest.find? (fun p => p.1 == tok) = some m := by
        rw [List.find?_cons] at hfind
        cases hb2 : (p.1 == tok)
        · rwa [hb2] at hfind
        · rw [hb2] at hb
          cases hb
      have hrec := ih hnd hfind2
      unfold get_active_sessions at hrec ⊢
      rw [List.map_cons]
      simp only [hb]
      cases hu : (p.2.user_id == uid) <;>
        simp [List.filter_cons, hu, -List.filter_filter] at hrec ⊢ <;>
        omega
    · have hm : m = p := by
        rw [List.find?_cons] at hfind
        rw [hb] at hfind
        injection hfind with hh
        exact hh.symm
      have hkey : p.1 = tok := by simpa using hb
      have hrest : rest.map (fun q => if q.1 == tok then (q.1, s2) else q) = rest := by
        have hid : ∀ q ∈ rest,
            (if q.1 == tok then (q.1, s2) else q) = (fun q => q) q := by
          intro q hq
          have hne : ¬ q.1 = tok := by
            intro he
            exact hp (by
              rw [hkey, ← he]
              exact List.mem_map_of_mem Prod.fst hq)
          simp [hne]
        rw [List.map_congr_left hid]
        simp
      have huser : s2.user_id = p.2.user_id := by
        rw [hsame, hm]
      unfold get_active_sessions
      rw [List.map_cons]
      simp only [hb]
      rw [hrest]
      cases hu2 : (p.2.user_id == uid)
      · have hu1 : (s2.user_id == uid) = false := by
          rw [huser]
          exact hu2
        simp [List.filter_cons, hu1, hu2, -List.filter_filter]
      · have hu1 : (s2.user_id == uid) = true := by
          rw [huser]
          exact hu2
        simp [List.filter_cons, hu1, hu2, -List.filter_filter]

/-- With distinct keys, `setTok` adds at most one session for any
identity. -/
theorem get_active_setTok_le (uid tok : String) (s : Session) (tbl : SessionTable)
    (hnd : (tbl.map Prod.fst).Nodup) :
    get_active_sessions uid (setTok tok s tbl) ≤ get_active_sessions uid tbl + 1 := by
  unfold setTok
  split
  · exact get_active_replace_le uid tok s tbl hnd
  · unfold get_active_sessions
    rw [List.filter_append, List.length_append]
    have hone : (List.filter (fun p => p.2.user_id == uid) [(tok, s)]).length ≤ 1 := by
      cases hu : (s.user_id == uid) <;> simp [List.filter_cons, hu]
    omega

/-- `setTok` of a session of a different identity never increases that
identity's count. -/
theorem get_active_setTok_other (uid2 tok : String) (s : Session) (tbl : SessionTable)
    (hs : (s.user_id == uid2) = false) :
    get_active_sessions uid2 (setTok tok s tbl) ≤ get_active_sessions uid2 tbl := by
  unfold setTok
  split
  · unfold get_active_sessions
    apply length_filter_map_le
    intro a _ hq
    by_cases hb : (a.1 == tok) = true
    · rw [hb] at hq
      simp only [if_true] at hq
      rw [show ((a.1, s).2.user_id == uid2) = false from hs] at hq
      cases hq
    · rw [Bool.not_eq_true] at hb
      rwa [hb] at hq
  · unfold get_active_sessions
    rw [List.filter_append, List.length_append]
    simp [List.filter_cons, hs]

/-- `create_session` preserves the session-table invariant. -/
theorem goodTable_create (now : Nat) (uid tok : String)
    (ad : List (String × String)) (tbl : SessionTable) (h : goodTable tbl) :
    goodTable (create_session now uid tok ad tbl) := by
  obtain ⟨hnd, hcnt⟩ := h
  have hnd1 :
      ((_cleanup_expired_sessions now (some uid) tbl).map Prod.fst).Nodup := by
    unfold _cleanup_expired_sessions
    exact keys_filter_nodup _ tbl hnd
  have hcnt1 : ∀ u2,
      get_active_sessions u2 (_cleanup_expired_sessions now (some uid) tbl) ≤
        MAX_CONCURRENT_SESSIONS := by
    intro u2
    unfold _cleanup_expired_sessions
    exact le_trans (get_active_filter_le u2 _ tbl) (hcnt u2)
  by_cases hge : MAX_CONCURRENT_SESSIONS ≤
      (user_sessions uid (_cleanup_expired_sessions now (some uid) tbl)).length
  · have hne : user_sessions uid (_cleanup_expired_sessions now (some uid) tbl) ≠ [] := by
      intro h0
      rw [h0] at hge
      simp [MAX_CONCURRENT_SESSIONS] at hge
    obtain ⟨m, hm_eq, hm_mem, hm_min⟩ := oldestSession_spec _ hne
    have hstep : create_session now uid tok ad tbl =
        setTok tok ⟨uid, now, now, none, ad⟩
          (eraseTok m.1 (_cleanup_expired_sessions now (some uid) tbl)) := by
      simp only [create_session]
      rw [if_pos hge, hm_eq]
    rw [hstep]
    have hnd2 :
        ((eraseTok m.1 (_cleanup_expired_sessions now (some uid) tbl)).map
          Prod.fst).Nodup := by
      unfold eraseTok
      exact keys_filter_nodup _ _ hnd1
    refine ⟨keys_setTok_nodup _ _ _ hnd2, ?_⟩
    intro u2
    by_cases hu : u2 = uid
    · subst hu
      have h1 := get_active_setTok_le u2 tok ⟨u2, now, now, none, ad⟩
        (eraseTok m.1 (_cleanup_expired_sessions now (some u2) tbl)) hnd2
      have h2 := get_active_erase_lt u2 (_cleanup_expired_sessions now (some u2) tbl)
        m hm_mem
      have h3 := hcnt1 u2
      omega
    · have h1 := get_active_setTok_other u2 tok ⟨uid, now, now, none, ad⟩
        (eraseTok m.1 (_cleanup_expired_sessions now (some uid) tbl))
        (beq_eq_false_iff_ne.mpr (fun hh => hu hh.symm))
      have h2 : get_active_sessions u2
          (eraseTok m.1 (_cleanup_expired_sessions now (some uid) tbl)) ≤
          get_active_sessions u2 (_cleanup_expired_sessions now (some uid) tbl) := by
        unfold eraseTok
        exact get_active_filter_le u2 _ _
      have h3 := hcnt1 u2
      omega
  · have hstep : create_session now uid tok ad tbl =
        setTok tok ⟨uid, now, now, none, ad⟩
          (_cleanup_expired_sessions now (some uid) tbl) := by
      simp only [create_session]
      rw [if_neg hge]
    rw [hstep]
    refine ⟨keys_setTok_nodup _ _ _ hnd1, ?_⟩
    intro u2
    by_cases hu : u2 = uid
    · subst hu
      have h1 := get_active_setTok_le u2 tok ⟨u2, now, now, none, ad⟩
        (_cleanup_expired_sessions now (some u2) tbl) hnd1
      have h2 : get_active_sessions u2 (_cleanup_expired_sessions now (some u2) tbl) =
          (user_sessions u2 (_cleanup_expired_sessions now (some u2) tbl)).length := rfl
      omega
    · have h1 := get_active_setTok_other u2 tok ⟨uid, now, now, none, ad⟩
        (_cleanup_expired_sessions now (some uid) tbl)
        (beq_eq_false_iff_ne.mpr (fun hh => hu hh.symm))
      have h3 := hcnt1 u2
      omega

/-- The table after a `validate_session` call preserves the
session-table invariant (the deadlocked path leaves it untouched). -/
theorem goodTable_validate (now : Nat) (tok : String) (tbl : SessionTable)
    (h : goodTable tbl) : goodTable (validate_session_table now tok tbl) := by
  obtain ⟨hnd, hcnt⟩ := h
  cases hfind : tbl.find? (fun p => p.1 == tok) with
  | none =>
    have heq : validate_session_table now tok tbl = tbl := by
      simp [validate_session_table, validate_session, hfind]
    rw [heq]
    exact ⟨hnd, hcnt⟩
  | some m =>
    by_cases hexp : SESSION_TIMEOUT < now - m.2.created_at
    · have heq : validate_session_table now tok tbl = tbl := by
        simp [validate_session_table, validate_session, hfind, hexp]
      rw [heq]
      exact ⟨hnd, hcnt⟩
    · have heq : validate_session_table now tok tbl =
          setTok tok { m.2 with last_activity := now } tbl := by
        simp [validate_session_table, validate_session, hfind, hexp]
      rw [heq]
      refine ⟨keys_setTok_nodup _ _ _ hnd, ?_⟩
      intro u2
      have hany : tbl.any (fun p => p.1 == tok) = true := by
        rw [List.any_eq_true]
        have hpm := List.find?_some hfind
        exact ⟨m, List.mem_of_find?_eq_some hfind, hpm⟩
      unfold setTok
      rw [if_pos hany]
      rw [get_active_replace_found u2 tok { m.2 with last_activity := now } tbl hnd
        m hfind rfl]
      exact hcnt u2

/-- `_invalidate_session` preserves the session-table invariant. -/
theorem goodTable_invalidate (tok : String) (tbl : SessionTable)
    (h : goodTable tbl) : goodTable (_invalidate_session tok tbl) := by
  obtain ⟨hnd, hcnt⟩ := h
  refine ⟨?_, ?_⟩
  · unfold _invalidate_session eraseTok
    exact keys_filter_nodup _ tbl hnd
  · intro u2
    refine le_trans ?_ (hcnt u2)
    unfold _invalidate_session eraseTok
    exact get_active_filter_le u2 _ tbl

/-- Any call sequence preserves the session-table invariant. -/
theorem goodTable_runOps (ops : List SOp) (tbl : SessionTable)
    (h : goodTable tbl) : goodTable (runOps ops tbl) := by
  induction ops generalizing tbl with
  | nil => exact h
  | cons op rest ih =>
    have hstep : runOps (op :: rest) tbl = runOps rest (applyOp tbl op) := rfl
    rw [hstep]
    apply ih
    cases op with
    | create now uid tok ad => exact goodTable_create now uid tok ad tbl h
    | validate now tok => exact goodTable_validate now tok tbl h
    | invalidate tok => exact goodTable_invalidate tok tbl h

/-- C1: starting from the empty table, no call sequence ever leaves an
identity with more than `MAX_CONCURRENT_SESSIONS` sessions; and whenever
`create_session` finds the identity holding at least
`MAX_CONCURRENT_SESSIONS` sessions after purging its expired ones, it
removes exactly a session of that identity with minimal `created_at`
before inserting the new one. -/
theorem c1_session_limit :
    (∀ ops uid, get_active_sessions uid (runOps ops []) ≤ MAX_CONCURRENT_SESSIONS) ∧
    (∀ (now : Nat) (uid tok : String) (ad : List (String × String))
        (tbl : SessionTable),
      MAX_CONCURRENT_SESSIONS ≤
        (user_sessions uid (_cleanup_expired_sessions now (some uid) tbl)).length →
      ∃ m, m ∈ user_sessions uid (_cleanup_expired_sessions now (some uid) tbl) ∧
        (∀ q ∈ user_sessions uid (_cleanup_expired_sessions now (some uid) tbl),
          m.2.created_at ≤ q.2.created_at) ∧
        create_session now uid tok ad tbl =
          setTok tok ⟨uid, now, now, none, ad⟩
            (eraseTok m.1 (_cleanup_expired_sessions now (some uid) tbl))) := by
  constructor
  · intro ops uid
    have hempty : goodTable ([] : SessionTable) := by
      constructor
      · simp
      · intro u2
        simp [get_active_sessions, MAX_CONCURRENT_SESSIONS]
    exact (goodTable_runOps ops [] hempty).2 uid
  · intro now uid tok ad tbl hge
    have hne : user_sessions uid (_cleanup_expired_sessions now (some uid) tbl) ≠ [] := by
      intro h0
      rw [h0] at hge
      simp [MAX_CONCURRENT_SESSIONS] at hge
    obtain ⟨m, hm_eq, hm_mem, hm_min⟩ := oldestSession_spec _ hne
    refine ⟨m, hm_mem, hm_min, ?_⟩
    simp only [create_session]
    rw [if_pos hge, hm_eq]

/-- Witness for C1: a fourth `create_session` call for `"u"` keeps the
count at 3 and evicts the oldest token. -/
theorem c1_session_limit_witness :
    get_active_sessions "u"
      (runOps [SOp.create 0 "u" "t1" [], SOp.create 1 "u" "t2" [],
        SOp.create 2 "u" "t3" [], SOp.create 3 "u" "t4" []] []) ≤
      MAX_CONCURRENT_SESSIONS ∧
    ∃ m, m ∈ user_sessions "u"
        (_cleanup_expired_sessions 3 (some "u")
          [("t1", ⟨"u", 0, 0, none, []⟩), ("t2", ⟨"u", 1, 1, none, []⟩),
           ("t3", ⟨"u", 2, 2, none, []⟩)]) ∧
      (∀ q ∈ user_sessions "u"
          (_cleanup_expired_sessions 3 (some "u")
            [("t1", ⟨"u", 0, 0, none, []⟩), ("t2", ⟨"u", 1, 1, none, []⟩),
             ("t3", ⟨"u", 2, 2, none, []⟩)]),
        m.2.created_at ≤ q.2.created_at) ∧
      create_session 3 "u" "t4" []
          [("t1", ⟨"u", 0, 0, none, []⟩), ("t2", ⟨"u", 1, 1, none, []⟩),
           ("t3", ⟨"u", 2, 2, none, []⟩)] =
        setTok "t4" ⟨"u", 3, 3, none, []⟩
          (eraseTok m.1
            (_cleanup_expired_sessions 3 (some "u")
              [("t1", ⟨"u", 0, 0, none, []⟩), ("t2", ⟨"u", 1, 1, none, []⟩),
               ("t3", ⟨"u", 2, 2, none, []⟩)])) :=
  ⟨c1_session_limit.1 [SOp.create 0 "u" "t1" [], SOp.create 1 "u" "t2" [],
      SOp.create 2 "u" "t3" [], SOp.create 3 "u" "t4" []] "u",
   c1_session_limit.2 3 "u" "t4" []
     [("t1", ⟨"u", 0, 0, none, []⟩), ("t2", ⟨"u", 1, 1, none, []⟩),
      ("t3", ⟨"u", 2, 2, none, []⟩)] (by decide)⟩
